import Mathlib

/-!
Shallow embedding of the `DynamicBayesianNetwork` class from
`pgmpy/models/DynamicBayesianNetwork.py`.

Nodes of the network are `(name, time_slice)` pairs; Python's arbitrary
hashable names are modelled by `String`, time slices by `Int` (Python
`int`).  The external graph primitive (networkx `DiGraph`) is modelled by
explicit, deduplicated node and edge lists kept in insertion order; the
external CPT value types (`TabularCPD`, `TreeCPD`, `RuleCPD`) are modelled
by a tagged union exposing the contract the DBN code uses (owned variable,
variable list, cardinalities, flat value tensor).  Probability values are
modelled by `Rat`.  Python exceptions become `Except DBNError`.
-/

unseal Rat.add Rat.mul Rat.inv Rat.sub

abbrev NodeName := String

abbrev DBNNode := NodeName × Int

abbrev DBNEdge := DBNNode × DBNNode

/-- The distinct `ValueError` messages raised by `DynamicBayesianNetwork`,
plus `attributeError` for a Python `AttributeError` (accessing a tabular-only
attribute on a tree/rule CPT). -/
inductive DBNError where
  | malformedNode
  | invalidDirection
  | unsupportedSpan
  | selfLoop
  | cycleError (e s : DBNNode)
  | invalidSlice
  | unsupportedFactorType
  | unknownVariable
  | inconsistentParents (n : DBNNode)
  | probabilityNormalization (n : DBNNode)
  | attributeError
deriving DecidableEq

/-- Data of a `TabularCPD`: the owned variable, its cardinality, the value
tensor stored flat (row-major, as pgmpy's `Factor` flattens it), the
evidence (parent) variables and their cardinalities. -/
structure TabularCPDData where
  «variable» : DBNNode
  variable_card : Nat
  values : List Rat
  evidence : List DBNNode
  evidence_card : List Nat
deriving DecidableEq

/-- The recognized CPD variants (`TabularCPD`, `TreeCPD`, `RuleCPD`).  Per
the collaborator contract, every variant exposes its owned variable and its
full variable list; only the tabular variant carries numeric data. -/
inductive CPD where
  | tabular (d : TabularCPDData)
  | tree (v : DBNNode) (vs : List DBNNode)
  | rule (v : DBNNode) (vs : List DBNNode)
deriving DecidableEq

def CPD.«variable» : CPD → DBNNode
  | .tabular d => d.«variable»
  | .tree v _ => v
  | .rule v _ => v

def CPD.variables : CPD → List DBNNode
  | .tabular d => d.«variable» :: d.evidence
  | .tree _ vs => vs
  | .rule _ vs => vs

/-- The `TabularCPD` constructor with evidence: takes the values as a list
of rows (one row per state of the owned variable) and stores them
flattened. -/
def TabularCPD (v : DBNNode) (card : Nat) (values2d : List (List Rat))
    (evidence : List DBNNode) (evidence_card : List Nat) : CPD :=
  .tabular ⟨v, card, values2d.flatten, evidence, evidence_card⟩

/-- The `TabularCPD` constructor without evidence. -/
def TabularCPDNoEv (v : DBNNode) (card : Nat) (values2d : List (List Rat)) : CPD :=
  .tabular ⟨v, card, values2d.flatten, [], []⟩

/-- The model state: the graph primitive's node and edge stores (insertion
order, no duplicates — networkx adjacency is a dict), the CPD list and the
(never consulted) cardinality map from `__init__`. -/
structure Model where
  nodeList : List DBNNode
  edgeList : List DBNEdge
  cpds : List CPD
  cardinalities : List (NodeName × Nat)
deriving DecidableEq

def Model.empty : Model := ⟨[], [], [], []⟩

/-- Graph primitive: `DiGraph.add_node` (no-op when present). -/
def gAddNode (m : Model) (n : DBNNode) : Model :=
  if n ∈ m.nodeList then m else { m with nodeList := m.nodeList ++ [n] }

/-- Insert an edge into the edge store (no-op when present). -/
def gInsertEdge (m : Model) (a b : DBNNode) : Model :=
  if (a, b) ∈ m.edgeList then m
  else { m with edgeList := m.edgeList ++ [(a, b)] }

/-- Graph primitive: `DiGraph.add_edge` (inserts missing endpoints, no-op
on a present edge). -/
def gAddEdge (m : Model) (a b : DBNNode) : Model :=
  gInsertEdge (gAddNode (gAddNode m a) b) a b

/-- Graph primitive: successors of a node. -/
def succs (edges : List DBNEdge) (n : DBNNode) : List DBNNode :=
  (edges.filter (fun e => e.1 = n)).map (·.2)

/-- Worklist reachability: the set of nodes reachable from the frontier. -/
def reachAux (edges : List DBNEdge) : Nat → List DBNNode → List DBNNode → List DBNNode
  | 0, _, visited => visited
  | _ + 1, [], visited => visited
  | fuel + 1, x :: rest, visited =>
    if x ∈ visited then reachAux edges fuel rest visited
    else reachAux edges fuel (rest ++ succs edges x) (visited ++ [x])

/-- Fuel that dominates the worklist search: every node is expanded at most
once and each expansion enqueues at most `edges.length` successors. -/
def reachFuel (m : Model) : Nat :=
  (m.edgeList.length + 1) * (m.nodeList.length + 2 * m.edgeList.length + 2) + 1

/-- Graph primitive: `nx.has_path(m, a, b)` (directed reachability; a node
reaches itself). -/
def hasPath (m : Model) (a b : DBNNode) : Bool :=
  b ∈ reachAux m.edgeList (reachFuel m) [a] []

/-- Graph primitive: `get_parents` = predecessor list (predecessors are
distinct by adjacency structure, hence the dedup). -/
def get_parents (m : Model) (n : DBNNode) : List DBNNode :=
  ((m.edgeList.filter (fun e => e.2 = n)).map (·.1)).dedup

/-- `DynamicBayesianNetwork.add_node`: inserts `(node, 0)`. -/
def Model.add_node (m : Model) (name : NodeName) : Model :=
  gAddNode m (name, 0)

/-- `DynamicBayesianNetwork.add_nodes_from`. -/
def Model.add_nodes_from (m : Model) (names : List NodeName) : Model :=
  names.foldl Model.add_node m

/-- `DynamicBayesianNetwork.nodes`: the distinct base names. -/
def Model.dbnNodes (m : Model) : List NodeName :=
  (m.nodeList.map Prod.fst).dedup

/-- The self-loop check, cycle check, commit and intra-slice mirroring that
`add_edge` performs after slice normalization (source lines 156-165).  The
cycle check runs only when both normalized endpoints are already nodes. -/
def commitEdge (m : Model) (s e : DBNNode) : Except DBNError Model :=
  if s = e then .error .selfLoop
  else if s ∈ m.nodeList ∧ e ∈ m.nodeList ∧ hasPath m e s = true then
    .error (.cycleError e s)
  else if s.2 = e.2 then
    .ok (gAddEdge (gAddEdge m s e) (s.1, 1 - s.2) (e.1, 1 - e.2))
  else
    .ok (gAddEdge m s e)

/-- `DynamicBayesianNetwork.add_edge` for well-formed `(name, slice)`
endpoints: the slice-relationship dispatch of source lines 143-152 followed
by `commitEdge`.  (The `MalformedNodeError` branches guard Python-level
ill-formed arguments, which the `DBNNode` type excludes.) -/
def Model.add_edge (m : Model) : DBNNode → DBNNode → Except DBNError Model
  | (su, ss), (eu, es) =>
    if ss = es then
      commitEdge m (su, 0) (eu, 0)
    else if ss = es - 1 then
      commitEdge m (su, 0) (eu, 1)
    else if ss = es + 1 then
      .error .invalidDirection
    else
      .error .unsupportedSpan

/-- `DynamicBayesianNetwork.add_edges_from`. -/
def Model.add_edges_from (m : Model) (ebunch : List DBNEdge) : Except DBNError Model :=
  ebunch.foldlM (fun acc e => acc.add_edge e.1 e.2) m

/-- `DynamicBayesianNetwork.get_intra_edges`: slice validation, then every
edge with both endpoints at canonical slice 0, relabelled to the requested
slice. -/
def Model.get_intra_edges (m : Model) (time_slice : Int) : Except DBNError (List DBNEdge) :=
  if time_slice < 0 then .error .invalidSlice
  else .ok ((m.edgeList.filter (fun e => e.1.2 = 0 ∧ e.2.2 = 0)).map
    (fun e => ((e.1.1, time_slice), (e.2.1, time_slice))))

/-- `DynamicBayesianNetwork.get_inter_edges`: every edge whose endpoints
have different slices.  The source method takes no slice argument and
performs no validation. -/
def Model.get_inter_edges (m : Model) : List DBNEdge :=
  m.edgeList.filter (fun e => e.1.2 ≠ e.2.2)

/-- `DynamicBayesianNetwork.get_interface_nodes`. -/
def Model.get_interface_nodes (m : Model) (time_slice : Int) : Except DBNError (List DBNNode) :=
  if time_slice < 0 then .error .invalidSlice
  else .ok (m.get_inter_edges.map (fun e => (e.1.1, time_slice)))

/-- `DynamicBayesianNetwork.get_slice_nodes`. -/
def Model.get_slice_nodes (m : Model) (time_slice : Int) : Except DBNError (List DBNNode) :=
  if time_slice < 0 then .error .invalidSlice
  else .ok (m.dbnNodes.map (fun n => (n, time_slice)))

/-- `DynamicBayesianNetwork.add_cpds` for a single CPD: the `isinstance`
check is vacuous in the typed model; rejects a CPD referencing a variable
absent from the graph, otherwise appends. -/
def Model.add_cpd (m : Model) (cpd : CPD) : Except DBNError Model :=
  if cpd.variables.all (fun v => decide (v ∈ m.nodeList)) then
    .ok { m with cpds := m.cpds ++ [cpd] }
  else .error .unknownVariable

/-- `DynamicBayesianNetwork.add_cpds` over a sequence. -/
def Model.add_cpds (m : Model) (cpds : List CPD) : Except DBNError Model :=
  cpds.foldlM Model.add_cpd m

/-- The list scan of `get_cpds(node=...)`: first CPD whose owned variable
matches. -/
def lookupCpd (cpds : List CPD) (node : DBNNode) : Option CPD :=
  cpds.find? (fun c => decide (c.«variable» = node))

/-- `DynamicBayesianNetwork.get_cpds` with a node argument: unknown-node
check, then the first-match scan (`none` models Python's implicit `None`
when no CPD matches). -/
def Model.get_cpds (m : Model) (node : DBNNode) : Except DBNError (Option CPD) :=
  if node ∈ m.nodeList then .ok (lookupCpd m.cpds node)
  else .error .unknownVariable

/-- Consecutive chunks of length `k` (empty for `k = 0`), driven by a
structural fuel so that it reduces; `fuel = xs.length` always suffices
since each step consumes at least one element. -/
def chunkEveryAux (k : Nat) : Nat → List Rat → List (List Rat)
  | _, [] => []
  | 0, _ :: _ => []
  | fuel + 1, x :: xs =>
    if k = 0 then []
    else ((x :: xs).take k) :: chunkEveryAux k fuel ((x :: xs).drop k)

/-- Consecutive chunks of length `k` (empty for `k = 0`). -/
def chunkEvery (k : Nat) (xs : List Rat) : List (List Rat) :=
  chunkEveryAux k xs.length xs

/-- `np.split(xs, n)`: split into `n` equal consecutive partitions (faithful
when `n` divides the length, which numpy requires). -/
def npSplit (n : Nat) (xs : List Rat) : List (List Rat) :=
  chunkEvery (xs.length / n) xs

def addVec (a b : List Rat) : List Rat := List.zipWith (· + ·) a b

def sumRows : List (List Rat) → List Rat
  | [] => []
  | [r] => r
  | r :: rest => addVec r (sumRows rest)

/-- `cpd.marginalize(node, inplace=False).values`: summing the owned
variable out of a tabular CPD sums its `variable_card` value rows
elementwise. -/
def marginalize_values (d : TabularCPDData) : List Rat :=
  sumRows (npSplit d.variable_card d.values)

/-- The tolerance of `np.allclose(..., atol=0.01)` against the desired
value 1: `atol + rtol * |1|` with numpy's default `rtol = 1e-5`. -/
def allcloseTol : Rat := 1 / 100 + 1 / 100000

/-- Absolute value (numpy's `absolute`, idealized over `Rat`). -/
def ratAbs (x : Rat) : Rat := if x < 0 then -x else x

/-- `np.allclose(vals, np.ones(...), atol=0.01)`: every entry within
`allcloseTol` of 1 (the ones vector broadcasts over the marginalized
values). -/
def allcloseOnes (vals : List Rat) : Bool :=
  vals.all (fun x => decide (ratAbs (x - 1) ≤ allcloseTol))

/-- Python `set(xs) == set(ys)`. -/
def sameSet (xs ys : List DBNNode) : Bool :=
  xs.all (fun x => decide (x ∈ ys)) && ys.all (fun y => decide (y ∈ xs))

/-- The checks `check_model` runs on a looked-up CPD: skip unless tabular;
then the parent-consistency check followed by the normalization check
(source lines 356-368). -/
def checkNodeCpd (m : Model) (n : DBNNode) : Option CPD → Except DBNError Unit
  | some (.tabular d) =>
    if sameSet d.evidence (get_parents m n) then
      if allcloseOnes (marginalize_values d) then .ok ()
      else .error (.probabilityNormalization n)
    else .error (.inconsistentParents n)
  | _ => .ok ()

/-- The `check_model` loop body for one node. -/
def checkNode (m : Model) (n : DBNNode) : Except DBNError Unit :=
  checkNodeCpd m n (lookupCpd m.cpds n)

def checkNodes (m : Model) : List DBNNode → Except DBNError Bool
  | [] => .ok true
  | n :: rest =>
    match checkNode m n with
    | .error e => .error e
    | .ok _ => checkNodes m rest

/-- `DynamicBayesianNetwork.check_model`. -/
def Model.check_model (m : Model) : Except DBNError Bool :=
  checkNodes m m.nodeList

/-- `all(x[1] == parents[0][1] for x in parents)`: vacuously true on an
empty parent list (the generator body never runs). -/
def allSameSlice : List DBNNode → Bool
  | [] => true
  | p :: ps => (p :: ps).all (fun x => decide (x.2 = p.2))

def mirrorVar (v : DBNNode) : DBNNode := (v.1, 1 - v.2)

/-- The `initialize_initial_state` loop body for one CPD, up to and
including the `add_cpds` call (source lines 397-406); the per-iteration
`check_model()` call is sequenced separately in `initLoop`. -/
def initStep (m : Model) (cpd : CPD) : Except DBNError Model :=
  let temp_var := mirrorVar cpd.«variable»
  let parents := get_parents m temp_var
  if m.cpds.any (fun x => decide (x.«variable» = temp_var)) then .ok m
  else if allSameSlice parents then
    match cpd with
    | .tabular d =>
      if parents.isEmpty then
        m.add_cpd (TabularCPDNoEv temp_var d.variable_card (npSplit d.variable_card d.values))
      else
        m.add_cpd (TabularCPD temp_var d.variable_card (npSplit d.variable_card d.values)
          parents d.evidence_card)
    | _ => .error .attributeError
  else .ok m

/-- Python's `for cpd in self.cpds` also visits elements appended during
iteration, so the loop walks an index over the growing list.  A fuel of
`2 * initial length + 1` dominates: each original CPD appends at most one
new CPD, and a synthesized CPD appends nothing (its mirror already has a
CPD). -/
def initLoop : Nat → Model → Nat → Except DBNError Model
  | 0, m, _ => .ok m
  | fuel + 1, m, i =>
    if h : i < m.cpds.length then
      match initStep m (m.cpds.get ⟨i, h⟩) with
      | .error e => .error e
      | .ok m' =>
        match m'.check_model with
        | .error e => .error e
        | .ok _ => initLoop fuel m' (i + 1)
    else .ok m

/-- `DynamicBayesianNetwork.initialize_initial_state`. -/
def Model.initialize_initial_state (m : Model) : Except DBNError Model :=
  initLoop (2 * m.cpds.length + 1) m 0

structure UndirectedGraph where
  uedges : List (DBNNode × DBNNode)
deriving DecidableEq

/-- `itertools.combinations(l, 2)`. -/
def combinations2 : List DBNNode → List (DBNNode × DBNNode)
  | [] => []
  | x :: xs => (xs.map (fun y => (x, y))) ++ combinations2 xs

/-- `DynamicBayesianNetwork.moralize`: the undirected projection of every
directed edge, plus an edge between every pair of parents of every node.
A pure function of the model (the source builds a fresh
`UndirectedGraph`). -/
def Model.moralize (m : Model) : UndirectedGraph :=
  ⟨m.edgeList ++ (m.nodeList.flatMap (fun n => combinations2 (get_parents m n)))⟩

/-- Membership of an undirected edge (orientation-insensitive, as in a
networkx undirected graph). -/
def uContains (g : UndirectedGraph) (a b : DBNNode) : Prop :=
  (a, b) ∈ g.uedges ∨ (b, a) ∈ g.uedges

instance (g : UndirectedGraph) (a b : DBNNode) : Decidable (uContains g a b) :=
  inferInstanceAs (Decidable (_ ∨ _))

instance {ε α : Type} [DecidableEq ε] [DecidableEq α] : DecidableEq (Except ε α) := fun a b =>
  match a, b with
  | .ok x, .ok y => decidable_of_iff (x = y) (by simp)
  | .error x, .error y => decidable_of_iff (x = y) (by simp)
  | .ok _, .error _ => .isFalse (by simp)
  | .error _, .ok _ => .isFalse (by simp)

/-! Concrete models used by the witnesses, examples and counterexamples. -/

/-- A model holding the committed edge `(B,0)->(A,0)` (plus its mirror),
used to exhibit the cycle error. -/
def mBA : Model := (Model.empty.add_edge ("B", 0) ("A", 0)).toOption.getD Model.empty

/-- The docstring example's node set `{D, G, I, S, L}`. -/
def student7 : Model := Model.empty.add_nodes_from ["D", "G", "I", "S", "L"]

/-- The docstring example's four edges: three intra-slice, one inter-slice. -/
def edges7 : List DBNEdge :=
  [(("D",0),("G",0)), (("I",0),("G",0)), (("G",0),("L",0)), (("D",0),("D",1))]

/-- The docstring example model after `add_edges_from`. -/
def model7 : Model := (student7.add_edges_from edges7).toOption.getD Model.empty

/-- The moralization example model `DBN([(('D',0),('G',0)), (('I',0),('G',0))])`. -/
def model5 : Model :=
  (Model.empty.add_edges_from [(("D",0),("G",0)), (("I",0),("G",0))]).toOption.getD Model.empty

/-- A CPT owned by `(X,1)` with evidence `(D,0)` and evidence cardinality 2. -/
def cpdC2 : CPD :=
  TabularCPD ("X",1) 2 [[1/2, 1/2], [1/2, 1/2]] [("D",0)] [2]

/-- A model with nodes `(X,0)`, `(D,0)`, `(X,1)`, the inter-slice edge
`(D,0)->(X,1)` and the single CPT `cpdC2`: the mirrored variable `(X,0)`
has no parents while `cpdC2` has nonempty evidence cardinalities. -/
def cex2m : Model :=
  ((Model.empty.add_node "X").add_edge ("D",0) ("X",1) >>= (·.add_cpd cpdC2)).toOption.getD
    Model.empty

/-- The model produced by `initialize_initial_state` on `cex2m`. -/
def cex2res : Model := cex2m.initialize_initial_state.toOption.getD Model.empty

/-- A parentless CPT whose marginal sum is `1 + 2001/200000`: farther than
0.01 from 1 but within numpy's `atol + rtol` tolerance. -/
def cpdY3 : CPD := TabularCPDNoEv ("Y",0) 2 [[202001/400000], [202001/400000]]

/-- A model registering `cpdY3` on node `(Y,0)`. -/
def cex3m : Model := ((Model.empty.add_node "Y").add_cpd cpdY3).toOption.getD Model.empty

/-- A parentless CPT on `(Z,0)` whose marginal sum 3/5 violates every
tolerance. -/
def cpdZBad : CPD := TabularCPDNoEv ("Z",0) 2 [[3/10], [3/10]]

/-- A model whose only CPT fails the normalization check. -/
def cexBad : Model := ((Model.empty.add_node "Z").add_cpd cpdZBad).toOption.getD Model.empty

/-- First CPT registered for `(X,0)`. -/
def cpd8a : CPD := TabularCPDNoEv ("X",0) 2 [[1/2], [1/2]]

/-- Second CPT registered for the same variable `(X,0)`, with different
values. -/
def cpd8b : CPD := TabularCPDNoEv ("X",0) 2 [[1/4], [3/4]]

/-- The intermediate model with only `cpd8a` registered. -/
def cex8m1 : Model :=
  ((Model.empty.add_node "X").add_cpd cpd8a).toOption.getD Model.empty

/-- A model where two CPTs own `(X,0)`, registered in order `cpd8a`,
`cpd8b`. -/
def cex8m : Model :=
  ((Model.empty.add_node "X").add_cpd cpd8a >>= (·.add_cpd cpd8b)).toOption.getD Model.empty

/-- A model whose only CPD is a tree CPD owned by `(T,0)`. -/
def treeM : Model :=
  ((Model.empty.add_node "T").add_cpd (.tree ("T",0) [("T",0)])).toOption.getD Model.empty

/-- A CPT owned by `(G,1)`, used to instantiate the synthesis of a mirrored
CPT whose mirrored variable `(G,0)` has the two parents `(D,0)`, `(I,0)` in
the docstring model. -/
def cpdG7 : TabularCPDData :=
  ⟨("G", 1), 3, [3/10, 1/20, 9/10, 1/2, 2/5, 1/4, 4/5, 3/100, 3/10, 7/10, 1/50, 1/5],
    [("I", 1), ("D", 1)], [2, 2]⟩

/-! Helper lemmas about the graph primitive. -/

lemma gAddNode_edgeList (m : Model) (n : DBNNode) :
    (gAddNode m n).edgeList = m.edgeList := by
  unfold gAddNode; split <;> rfl

lemma gAddNode_mem_self (m : Model) (n : DBNNode) :
    n ∈ (gAddNode m n).nodeList := by
  unfold gAddNode; split
  · assumption
  · simp

lemma gAddNode_node_mono {m : Model} {x : DBNNode} (n : DBNNode)
    (h : x ∈ m.nodeList) : x ∈ (gAddNode m n).nodeList := by
  unfold gAddNode; split
  · exact h
  · simp [h]

lemma gInsertEdge_nodeList (m : Model) (a b : DBNNode) :
    (gInsertEdge m a b).nodeList = m.nodeList := by
  unfold gInsertEdge; split <;> rfl

lemma gInsertEdge_mem_self (m : Model) (a b : DBNNode) :
    (a, b) ∈ (gInsertEdge m a b).edgeList := by
  unfold gInsertEdge; split
  · assumption
  · simp

lemma gInsertEdge_edge_mono {m : Model} {e : DBNEdge} (a b : DBNNode)
    (h : e ∈ m.edgeList) : e ∈ (gInsertEdge m a b).edgeList := by
  unfold gInsertEdge; split <;> simp [h]

lemma gInsertEdge_edge_elim {m : Model} {e : DBNEdge} {a b : DBNNode}
    (h : e ∈ (gInsertEdge m a b).edgeList) : e ∈ m.edgeList ∨ e = (a, b) := by
  unfold gInsertEdge at h; split at h <;> simp_all

lemma gAddEdge_mem_self (m : Model) (a b : DBNNode) :
    (a, b) ∈ (gAddEdge m a b).edgeList :=
  gInsertEdge_mem_self _ a b

lemma gAddEdge_edge_mono {m : Model} {e : DBNEdge} (a b : DBNNode)
    (h : e ∈ m.edgeList) : e ∈ (gAddEdge m a b).edgeList := by
  unfold gAddEdge
  exact gInsertEdge_edge_mono a b (by simp only [gAddNode_edgeList]; exact h)

lemma gAddEdge_edge_elim {m : Model} {e : DBNEdge} {a b : DBNNode}
    (h : e ∈ (gAddEdge m a b).edgeList) : e ∈ m.edgeList ∨ e = (a, b) := by
  unfold gAddEdge at h
  rcases gInsertEdge_edge_elim h with h' | h'
  · simp only [gAddNode_edgeList] at h'
    exact .inl h'
  · exact .inr h'

lemma gAddEdge_node_left (m : Model) (a b : DBNNode) :
    a ∈ (gAddEdge m a b).nodeList := by
  unfold gAddEdge
  rw [gInsertEdge_nodeList]
  exact gAddNode_node_mono b (gAddNode_mem_self m a)

lemma gAddEdge_node_right (m : Model) (a b : DBNNode) :
    b ∈ (gAddEdge m a b).nodeList := by
  unfold gAddEdge
  rw [gInsertEdge_nodeList]
  exact gAddNode_mem_self _ b

lemma gAddEdge_node_mono {m : Model} {x : DBNNode} (a b : DBNNode)
    (h : x ∈ m.nodeList) : x ∈ (gAddEdge m a b).nodeList := by
  unfold gAddEdge
  rw [gInsertEdge_nodeList]
  exact gAddNode_node_mono b (gAddNode_node_mono a h)

lemma add_edge_def (m : Model) (su eu : NodeName) (ss es : Int) :
    m.add_edge (su, ss) (eu, es) =
      if ss = es then commitEdge m (su, 0) (eu, 0)
      else if ss = es - 1 then commitEdge m (su, 0) (eu, 1)
      else if ss = es + 1 then .error .invalidDirection
      else .error .unsupportedSpan := rfl

/-! Helper lemmas about `commitEdge`. -/

lemma commitEdge_ok_intra {m m' : Model} {u v : NodeName}
    (h : commitEdge m (u, 0) (v, 0) = .ok m') :
    m' = gAddEdge (gAddEdge m (u, 0) (v, 0)) (u, 1) (v, 1) := by
  unfold commitEdge at h
  split at h
  · exact Except.noConfusion h
  · split at h
    · exact Except.noConfusion h
    · norm_num at h
      exact h.symm

lemma commitEdge_ok_inter {m m' : Model} {u v : NodeName}
    (h : commitEdge m (u, 0) (v, 1) = .ok m') :
    m' = gAddEdge m (u, 0) (v, 1) := by
  unfold commitEdge at h
  split at h
  · exact Except.noConfusion h
  · split at h
    · exact Except.noConfusion h
    · norm_num at h
      exact h.symm

lemma commitEdge_isOk {m : Model} {s e : DBNNode} (hne : s ≠ e)
    (hguard : ¬(s ∈ m.nodeList ∧ e ∈ m.nodeList ∧ hasPath m e s = true)) :
    ∃ m', commitEdge m s e = .ok m' := by
  unfold commitEdge
  rw [if_neg hne, if_neg hguard]
  split <;> exact ⟨_, rfl⟩

/-- C1: a successful `add_edge` on endpoints with equal time slices leaves
both the normalized slice-0 edge and its mirrored slice-1 copy in the
graph, while a successful `add_edge` on endpoints one forward step apart
adds only the single normalized inter-slice edge `((u,0),(v,1))` and no
mirrored edge. -/
theorem add_edge_intra_mirrored_inter_single :
    (∀ (m m' : Model) (u v : NodeName) (s : Int),
        m.add_edge (u, s) (v, s) = .ok m' →
        ((u, 0), (v, 0)) ∈ m'.edgeList ∧ ((u, 1), (v, 1)) ∈ m'.edgeList) ∧
    (∀ (m m' : Model) (u v : NodeName) (s : Int),
        m.add_edge (u, s) (v, s + 1) = .ok m' →
        ((u, 0), (v, 1)) ∈ m'.edgeList ∧
        ∀ e ∈ m'.edgeList, e ∈ m.edgeList ∨ e = ((u, 0), (v, 1))) := by
  constructor
  · intro m m' u v s h
    rw [add_edge_def, if_pos rfl] at h
    rw [commitEdge_ok_intra h]
    constructor
    · exact gAddEdge_edge_mono _ _ (gAddEdge_mem_self m _ _)
    · exact gAddEdge_mem_self _ _ _
  · intro m m' u v s h
    rw [add_edge_def] at h
    rw [if_neg (by omega : ¬(s = s + 1)), if_pos (by omega : s = s + 1 - 1)] at h
    rw [commitEdge_ok_inter h]
    refine ⟨gAddEdge_mem_self m _ _, ?_⟩
    intro e he
    exact gAddEdge_edge_elim he

/-- Witness for C1 on a concrete model: adding `(A,0)->(B,0)` to the empty
model commits the edge and its slice-1 mirror; adding `(A,0)->(B,1)` to the
empty model commits exactly that edge. -/
theorem add_edge_intra_mirrored_inter_single_witness :
    (((("A" : NodeName), (0 : Int)), (("B" : NodeName), (0 : Int))) ∈
        (gAddEdge (gAddEdge Model.empty ("A", 0) ("B", 0)) ("A", 1) ("B", 1)).edgeList ∧
      ((("A" : NodeName), (1 : Int)), (("B" : NodeName), (1 : Int))) ∈
        (gAddEdge (gAddEdge Model.empty ("A", 0) ("B", 0)) ("A", 1) ("B", 1)).edgeList) ∧
    ((("A" : NodeName), (0 : Int)), (("B" : NodeName), (1 : Int))) ∈
      (gAddEdge Model.empty ("A", 0) ("B", 1)).edgeList := by
  constructor
  · exact add_edge_intra_mirrored_inter_single.1 Model.empty _ "A" "B" 0 (by decide)
  · exact (add_edge_intra_mirrored_inter_single.2 Model.empty _ "A" "B" 0 (by decide)).1

/-- C4: validation order of `add_edge` on well-formed endpoints — a start
slice one above the end slice fails with the invalid-direction error; any
other slice gap than 0 or 1 fails with the unsupported-span error; equal
normalized endpoints fail with the self-loop error; when both normalized
endpoints are already nodes and a path runs from the normalized end back to
the normalized start it fails with the cycle error; otherwise the edge is
committed. -/
theorem add_edge_validation_order :
    (∀ (m : Model) (u v : NodeName) (s t : Int), s = t + 1 →
        m.add_edge (u, s) (v, t) = .error .invalidDirection) ∧
    (∀ (m : Model) (u v : NodeName) (s t : Int),
        s ≠ t → s ≠ t - 1 → s ≠ t + 1 →
        m.add_edge (u, s) (v, t) = .error .unsupportedSpan) ∧
    (∀ (m : Model) (u : NodeName) (s : Int),
        m.add_edge (u, s) (u, s) = .error .selfLoop) ∧
    (∀ (m : Model) (u v : NodeName) (s : Int), u ≠ v →
        (u, 0) ∈ m.nodeList → (v, 0) ∈ m.nodeList →
        hasPath m (v, 0) (u, 0) = true →
        m.add_edge (u, s) (v, s) = .error (.cycleError (v, 0) (u, 0))) ∧
    (∀ (m : Model) (u v : NodeName) (s : Int),
        (u, 0) ∈ m.nodeList → (v, 1) ∈ m.nodeList →
        hasPath m (v, 1) (u, 0) = true →
        m.add_edge (u, s) (v, s + 1) = .error (.cycleError (v, 1) (u, 0))) ∧
    (∀ (m : Model) (u v : NodeName) (s : Int), u ≠ v →
        ¬((u, 0) ∈ m.nodeList ∧ (v, 0) ∈ m.nodeList ∧ hasPath m (v, 0) (u, 0) = true) →
        ∃ m', m.add_edge (u, s) (v, s) = .ok m') ∧
    (∀ (m : Model) (u v : NodeName) (s : Int),
        ¬((u, 0) ∈ m.nodeList ∧ (v, 1) ∈ m.nodeList ∧ hasPath m (v, 1) (u, 0) = true) →
        ∃ m', m.add_edge (u, s) (v, s + 1) = .ok m') := by
  refine ⟨?_, ?_, ?_, ?_, ?_, ?_, ?_⟩
  · intro m u v s t hst
    subst hst
    rw [add_edge_def]
    repeat' split
    all_goals first | rfl | (exfalso; omega)
  · intro m u v s t h0 h1 h2
    rw [add_edge_def]
    repeat' split
    all_goals first | rfl | (exfalso; omega)
  · intro m u s
    rw [add_edge_def]
    simp [commitEdge]
  · intro m u v s huv h1 h2 h3
    rw [add_edge_def]
    simp [commitEdge, huv, h1, h2, h3]
  · intro m u v s h1 h2 h3
    rw [add_edge_def]
    simp [commitEdge, h1, h2, h3]
  · intro m u v s huv hguard
    have hne : ((u, 0) : DBNNode) ≠ (v, 0) := by simp [huv]
    obtain ⟨m', hm'⟩ := commitEdge_isOk hne hguard
    exact ⟨m', by rw [add_edge_def]; simpa using hm'⟩
  · intro m u v s hguard
    have hne : ((u, 0) : DBNNode) ≠ (v, 1) := by simp
    obtain ⟨m', hm'⟩ := commitEdge_isOk hne hguard
    exact ⟨m', by rw [add_edge_def]; simpa using hm'⟩

/-- Witness for C4 at concrete inputs: each validation branch observed on a
concrete call. -/
theorem add_edge_validation_order_witness :
    Model.empty.add_edge ("A", 1) ("B", 0) = .error .invalidDirection ∧
    Model.empty.add_edge ("A", 0) ("B", 5) = .error .unsupportedSpan ∧
    Model.empty.add_edge ("A", 3) ("A", 3) = .error .selfLoop ∧
    mBA.add_edge ("A", 0) ("B", 0) = .error (.cycleError ("B", 0) ("A", 0)) ∧
    ∃ m', Model.empty.add_edge ("A", 0) ("B", 0) = .ok m' := by
  refine ⟨?_, ?_, ?_, ?_, ?_⟩
  · exact add_edge_validation_order.1 Model.empty "A" "B" 1 0 (by norm_num)
  · exact add_edge_validation_order.2.1 Model.empty "A" "B" 0 5
      (by norm_num) (by norm_num) (by norm_num)
  · exact add_edge_validation_order.2.2.1 Model.empty "A" 3
  · exact add_edge_validation_order.2.2.2.1 mBA "A" "B" 0
      (by decide) (by decide) (by decide) (by decide)
  · exact add_edge_validation_order.2.2.2.2.2.1 Model.empty "A" "B" 0
      (by decide) (by decide)

/-- C10: a successful `add_edge` puts the normalized endpoints into the
node set with no precondition that they were ever added, and an edge at
least one of whose normalized endpoints is not yet a node passes the cycle
guard and is committed. -/
theorem add_edge_autoinsert_guarded_cycle_check :
    (∀ (m m' : Model) (u v : NodeName) (s : Int),
        m.add_edge (u, s) (v, s) = .ok m' →
        (u, 0) ∈ m'.nodeList ∧ (v, 0) ∈ m'.nodeList) ∧
    (∀ (m m' : Model) (u v : NodeName) (s : Int),
        m.add_edge (u, s) (v, s + 1) = .ok m' →
        (u, 0) ∈ m'.nodeList ∧ (v, 1) ∈ m'.nodeList) ∧
    (∀ (m : Model) (u v : NodeName) (s : Int), u ≠ v →
        ((u, 0) ∉ m.nodeList ∨ (v, 0) ∉ m.nodeList) →
        ∃ m', m.add_edge (u, s) (v, s) = .ok m') ∧
    (∀ (m : Model) (u v : NodeName) (s : Int),
        ((u, 0) ∉ m.nodeList ∨ (v, 1) ∉ m.nodeList) →
        ∃ m', m.add_edge (u, s) (v, s + 1) = .ok m') := by
  refine ⟨?_, ?_, ?_, ?_⟩
  · intro m m' u v s h
    rw [add_edge_def, if_pos rfl] at h
    rw [commitEdge_ok_intra h]
    constructor
    · exact gAddEdge_node_mono _ _ (gAddEdge_node_left m _ _)
    · exact gAddEdge_node_mono _ _ (gAddEdge_node_right m _ _)
  · intro m m' u v s h
    rw [add_edge_def] at h
    rw [if_neg (by omega : ¬(s = s + 1)), if_pos (by omega : s = s + 1 - 1)] at h
    rw [commitEdge_ok_inter h]
    exact ⟨gAddEdge_node_left m _ _, gAddEdge_node_right m _ _⟩
  · intro m u v s huv hmiss
    have hne : ((u, 0) : DBNNode) ≠ (v, 0) := by simp [huv]
    have hguard : ¬((u, 0) ∈ m.nodeList ∧ (v, 0) ∈ m.nodeList ∧
        hasPath m (v, 0) (u, 0) = true) := by
      rcases hmiss with h | h <;> intro hc <;> [exact h hc.1; exact h hc.2.1]
    obtain ⟨m', hm'⟩ := commitEdge_isOk hne hguard
    exact ⟨m', by rw [add_edge_def]; simpa using hm'⟩
  · intro m u v s hmiss
    have hne : ((u, 0) : DBNNode) ≠ (v, 1) := by simp
    have hguard : ¬((u, 0) ∈ m.nodeList ∧ (v, 1) ∈ m.nodeList ∧
        hasPath m (v, 1) (u, 0) = true) := by
      rcases hmiss with h | h <;> intro hc <;> [exact h hc.1; exact h hc.2.1]
    obtain ⟨m', hm'⟩ := commitEdge_isOk hne hguard
    exact ⟨m', by rw [add_edge_def]; simpa using hm'⟩

/-- Witness for C10 at concrete inputs: on the empty model (no nodes ever
added) the intra edge `(A,0)->(B,0)` commits and both normalized endpoints
become nodes. -/
theorem add_edge_autoinsert_guarded_cycle_check_witness :
    (("A" : NodeName), (0 : Int)) ∈
      (gAddEdge (gAddEdge Model.empty ("A", 0) ("B", 0)) ("A", 1) ("B", 1)).nodeList ∧
    (("B" : NodeName), (0 : Int)) ∈
      (gAddEdge (gAddEdge Model.empty ("A", 0) ("B", 0)) ("A", 1) ("B", 1)).nodeList ∧
    ∃ m', Model.empty.add_edge ("C", 0) ("D", 0) = .ok m' := by
  have h1 := add_edge_autoinsert_guarded_cycle_check.1 Model.empty
    (gAddEdge (gAddEdge Model.empty ("A", 0) ("B", 0)) ("A", 1) ("B", 1)) "A" "B" 0 (by decide)
  have h2 := add_edge_autoinsert_guarded_cycle_check.2.2.1 Model.empty "C" "D" 0
    (by decide) (by decide)
  exact ⟨h1.1, h1.2, h2⟩

/-- C6 (amended): the three slice-query operations that take a slice
argument — `get_intra_edges`, `get_interface_nodes`, `get_slice_nodes` —
fail with the invalid-slice error whenever the (integer) slice argument is
negative.  (`get_inter_edges` takes no slice argument at all.) -/
theorem slice_query_negative_slice_errors (m : Model) (s : Int) (h : s < 0) :
    m.get_intra_edges s = .error .invalidSlice ∧
    m.get_interface_nodes s = .error .invalidSlice ∧
    m.get_slice_nodes s = .error .invalidSlice := by
  refine ⟨?_, ?_, ?_⟩ <;>
    simp [Model.get_intra_edges, Model.get_interface_nodes, Model.get_slice_nodes, h]

/-- Witness for C6 at the concrete model of the docstring example and
slice `-1`. -/
theorem slice_query_negative_slice_errors_witness :
    model7.get_intra_edges (-1) = .error .invalidSlice ∧
    model7.get_interface_nodes (-1) = .error .invalidSlice ∧
    model7.get_slice_nodes (-1) = .error .invalidSlice :=
  slice_query_negative_slice_errors model7 (-1) (by norm_num)

/-- C6 fails as stated for `get_inter_edges`: the source method takes no
slice argument and has no validation or failure path — its result is a
plain edge list (here computed on the docstring model), so the claimed
universal "fails with `InvalidSliceError` on a negative slice" is false:
the only slice-indexed reading of the call is constant and returns
successfully at slice `-1`. -/
theorem get_inter_edges_no_slice_validation_cex :
    model7.get_inter_edges = [(("D", 0), ("D", 1))] ∧
    ¬(∀ s : Int, s < 0 →
        (fun (_ : Int) =>
          (Except.ok model7.get_inter_edges : Except DBNError (List DBNEdge))) s =
        .error .invalidSlice) := by
  constructor
  · decide
  · intro h
    exact Except.noConfusion (h (-1) (by norm_num))

/-- C7: after `add_edges_from` with the docstring's four edges on nodes
`{D,G,I,S,L}`, `get_intra_edges` returns exactly the three slice-0 edges,
`get_inter_edges` exactly `[((D,0),(D,1))]`, and `get_interface_nodes`
exactly `[(D,0)]`. -/
theorem student_example_slice_queries :
    (student7.add_edges_from edges7).toOption = some model7 ∧
    model7.get_intra_edges 0 =
      .ok [(("D", 0), ("G", 0)), (("I", 0), ("G", 0)), (("G", 0), ("L", 0))] ∧
    model7.get_inter_edges = [(("D", 0), ("D", 1))] ∧
    model7.get_interface_nodes 0 = .ok [("D", 0)] := by
  exact ⟨by decide, by decide, by decide, by decide⟩

/-! Helper lemmas about the CPD list scan. -/

lemma lookupCpd_eq_some {l : List CPD} {node : DBNNode} {c : CPD}
    (h : lookupCpd l node = some c) :
    c.«variable» = node ∧
      ∃ l1 l2, l = l1 ++ c :: l2 ∧ ∀ x ∈ l1, x.«variable» ≠ node := by
  induction l with
  | nil => simp [lookupCpd] at h
  | cons a as ih =>
    by_cases hp : a.«variable» = node
    · have hh : lookupCpd (a :: as) node = some a := by
        simp [lookupCpd, List.find?, hp]
      have hca : c = a := by
        have := h.symm.trans hh
        injection this
      subst hca
      exact ⟨hp, [], as, rfl, by simp⟩
    · have hh : lookupCpd (a :: as) node = lookupCpd as node := by
        simp [lookupCpd, List.find?, hp]
      rw [hh] at h
      obtain ⟨hc, l1, l2, hsplit, hall⟩ := ih h
      refine ⟨hc, a :: l1, l2, by rw [hsplit]; rfl, ?_⟩
      intro x hx
      rcases List.mem_cons.mp hx with rfl | hx'
      · exact hp
      · exact hall x hx'

lemma lookupCpd_append_none {l1 : List CPD} (l2 : List CPD) (node : DBNNode)
    (h : lookupCpd l1 node = none) :
    lookupCpd (l1 ++ l2) node = lookupCpd l2 node := by
  induction l1 with
  | nil => simp
  | cons a as ih =>
    by_cases hp : a.«variable» = node
    · exfalso
      simp [lookupCpd, List.find?, hp] at h
    · have hh : lookupCpd (a :: as) node = lookupCpd as node := by
        simp [lookupCpd, List.find?, hp]
      rw [hh] at h
      have : lookupCpd ((a :: as) ++ l2) node = lookupCpd (as ++ l2) node := by
        simp [lookupCpd, List.find?, hp]
      rw [this]
      exact ih h

lemma add_cpd_ok_cpds {m m' : Model} {c : CPD} (h : m.add_cpd c = .ok m') :
    m'.cpds = m.cpds ++ [c] := by
  unfold Model.add_cpd at h
  split at h
  · cases h
    rfl
  · exact Except.noConfusion h

/-- C8 (amended): `add_cpds` appends every accepted CPT to the CPT list
with no deduplication by owned variable, and the lookup of
`get_cpds(node)` scans the list in insertion order and returns on the
first match — so with several CPTs registered for the same variable the
FIRST-added one is found. -/
theorem add_cpd_append_lookup_first_added :
    (∀ (m m' : Model) (c : CPD), m.add_cpd c = .ok m' → m'.cpds = m.cpds ++ [c]) ∧
    (∀ (m : Model) (node : DBNNode) (c : CPD),
        lookupCpd m.cpds node = some c →
        c.«variable» = node ∧
          ∃ l1 l2, m.cpds = l1 ++ c :: l2 ∧ ∀ x ∈ l1, x.«variable» ≠ node) ∧
    (∀ (m m1 m2 : Model) (c1 c2 : CPD) (node : DBNNode),
        c1.«variable» = node →
        m.add_cpd c1 = .ok m1 → m1.add_cpd c2 = .ok m2 →
        lookupCpd m.cpds node = none →
        lookupCpd m2.cpds node = some c1) ∧
    (∀ (m : Model) (node : DBNNode), node ∈ m.nodeList →
        m.get_cpds node = .ok (lookupCpd m.cpds node)) := by
  refine ⟨?_, ?_, ?_, ?_⟩
  · intro m m' c h
    exact add_cpd_ok_cpds h
  · intro m node c h
    exact lookupCpd_eq_some h
  · intro m m1 m2 c1 c2 node hv h1 h2 hnone
    rw [add_cpd_ok_cpds h2, add_cpd_ok_cpds h1, List.append_assoc]
    rw [lookupCpd_append_none _ node hnone]
    simp [lookupCpd, List.find?, hv]
  · intro m node hmem
    unfold Model.get_cpds
    rw [if_pos hmem]

/-- Witness for C8 at the concrete two-CPT model: with `cpd8a` then
`cpd8b` registered for `(X,0)`, the lookup finds `cpd8a`. -/
theorem add_cpd_append_lookup_first_added_witness :
    lookupCpd cex8m.cpds ("X", 0) = some cpd8a ∧
    cex8m.get_cpds ("X", 0) = .ok (lookupCpd cex8m.cpds ("X", 0)) := by
  constructor
  · exact add_cpd_append_lookup_first_added.2.2.1
      (Model.empty.add_node "X") cex8m1 cex8m cpd8a cpd8b ("X", 0)
      (by decide) (by decide) (by decide) (by decide)
  · exact add_cpd_append_lookup_first_added.2.2.2 cex8m ("X", 0) (by decide)

/-- C8 fails as stated: two CPTs are registered for `(X,0)` in order
`cpd8a`, `cpd8b`, and `get_cpds` returns the FIRST-added `cpd8a`, not the
last-added `cpd8b`. -/
theorem get_cpds_returns_first_added_cex :
    cex8m.cpds = [cpd8a, cpd8b] ∧
    cex8m.get_cpds ("X", 0) = .ok (some cpd8a) ∧
    cpd8a ≠ cpd8b := by
  exact ⟨by decide, by decide, by decide⟩

/-! Helper lemmas about moralization. -/

lemma get_parents_nodup (m : Model) (n : DBNNode) : (get_parents m n).Nodup :=
  List.nodup_dedup _

lemma combinations2_mem {a b : DBNNode} :
    ∀ {l : List DBNNode}, l.Nodup →
      ((a, b) ∈ combinations2 l ∨ (b, a) ∈ combinations2 l ↔
        a ∈ l ∧ b ∈ l ∧ a ≠ b) := by
  intro l
  induction l with
  | nil => intro _; simp [combinations2]
  | cons x xs ih =>
    intro hnd
    rcases List.nodup_cons.mp hnd with ⟨hx, hxs⟩
    have ihx := ih hxs
    simp only [combinations2, List.mem_append, List.mem_map, List.mem_cons]
    constructor
    · rintro (h | h)
      · rcases h with ⟨y, hy, he⟩ | h
        · injection he with h1 h2
          subst h1; subst h2
          refine ⟨Or.inl rfl, Or.inr hy, ?_⟩
          rintro rfl
          exact hx hy
        · have hres := ihx.mp (Or.inl h)
          exact ⟨Or.inr hres.1, Or.inr hres.2.1, hres.2.2⟩
      · rcases h with ⟨y, hy, he⟩ | h
        · injection he with h1 h2
          subst h1; subst h2
          refine ⟨Or.inr hy, Or.inl rfl, ?_⟩
          rintro rfl
          exact hx hy
        · have hres := ihx.mp (Or.inr h)
          exact ⟨Or.inr hres.1, Or.inr hres.2.1, hres.2.2⟩
    · rintro ⟨ha, hb, hab⟩
      rcases ha with rfl | ha
      · rcases hb with rfl | hb
        · exact absurd rfl hab
        · exact Or.inl (Or.inl ⟨b, hb, rfl⟩)
      · rcases hb with rfl | hb
        · exact Or.inr (Or.inl ⟨a, ha, rfl⟩)
        · rcases ihx.mpr ⟨ha, hb, hab⟩ with h | h
          · exact Or.inl (Or.inr h)
          · exact Or.inr (Or.inr h)

/-- C5: the moral graph's undirected edge set is exactly the undirected
projections of the model's directed edges together with an edge between
every pair of distinct parents of some node; on the example model with
edges `D0->G0`, `I0->G0` it contains the immorality-removal edge
`(D0,I0)` in addition to the projections of the two directed edges.
(`moralize` is a pure function of the model: it builds a fresh undirected
graph and leaves the model's node, edge and CPT lists untouched.) -/
theorem moralize_edges_characterized :
    (∀ (m : Model) (a b : DBNNode),
        uContains m.moralize a b ↔
          ((a, b) ∈ m.edgeList ∨ (b, a) ∈ m.edgeList) ∨
          ∃ n ∈ m.nodeList,
            a ∈ get_parents m n ∧ b ∈ get_parents m n ∧ a ≠ b) ∧
    (uContains model5.moralize ("D", 0) ("I", 0) ∧
      uContains model5.moralize ("D", 0) ("G", 0) ∧
      uContains model5.moralize ("I", 0) ("G", 0)) := by
  constructor
  · intro m a b
    unfold uContains Model.moralize
    simp only [List.mem_append, List.mem_flatMap]
    constructor
    · rintro ((h | h) | (h | h))
      · exact Or.inl (Or.inl h)
      · obtain ⟨n, hn, hc⟩ := h
        have hres := (combinations2_mem (get_parents_nodup m n)).mp (Or.inl hc)
        exact Or.inr ⟨n, hn, hres⟩
      · exact Or.inl (Or.inr h)
      · obtain ⟨n, hn, hc⟩ := h
        have hres := (combinations2_mem (get_parents_nodup m n)).mp (Or.inr hc)
        exact Or.inr ⟨n, hn, hres⟩
    · rintro ((h | h) | ⟨n, hn, ha, hb, hab⟩)
      · exact Or.inl (Or.inl h)
      · exact Or.inr (Or.inl h)
      · rcases (combinations2_mem (get_parents_nodup m n)).mpr ⟨ha, hb, hab⟩ with h | h
        · exact Or.inl (Or.inr ⟨n, hn, h⟩)
        · exact Or.inr (Or.inr ⟨n, hn, h⟩)
  · exact ⟨by decide, by decide, by decide⟩

/-! Helper lemmas about `check_model`. -/

lemma checkNodes_ok_iff (m : Model) (l : List DBNNode) :
    checkNodes m l = .ok true ↔ ∀ n ∈ l, checkNode m n = .ok () := by
  induction l with
  | nil => simp [checkNodes]
  | cons n rest ih =>
    cases h : checkNode m n with
    | error e => simp [checkNodes, h]
    | ok u =>
      cases u
      simp [checkNodes, h, ih]

lemma checkNodes_error_split (m : Model) (l : List DBNNode) (e : DBNError)
    (h : checkNodes m l = .error e) :
    ∃ l1 n l2, l = l1 ++ n :: l2 ∧ (∀ x ∈ l1, checkNode m x = .ok ()) ∧
      checkNode m n = .error e := by
  induction l with
  | nil => simp [checkNodes] at h
  | cons n rest ih =>
    cases hn : checkNode m n with
    | error e' =>
      have he : e' = e := by
        simp [checkNodes, hn] at h
        exact h
      subst he
      exact ⟨[], n, rest, rfl, by simp, hn⟩
    | ok u =>
      cases u
      simp only [checkNodes, hn] at h
      obtain ⟨l1, n', l2, hsplit, hall, hn'⟩ := ih h
      refine ⟨n :: l1, n', l2, by rw [hsplit]; rfl, ?_, hn'⟩
      intro x hx
      rcases List.mem_cons.mp hx with rfl | hx'
      · exact hn
      · exact hall x hx'

lemma checkNode_ok_iff (m : Model) (n : DBNNode) :
    checkNode m n = .ok () ↔
      ∀ d : TabularCPDData, lookupCpd m.cpds n = some (.tabular d) →
        sameSet d.evidence (get_parents m n) = true ∧
        allcloseOnes (marginalize_values d) = true := by
  unfold checkNode
  cases h : lookupCpd m.cpds n with
  | none => simp [checkNodeCpd]
  | some c =>
    cases c with
    | tabular d =>
      simp only [checkNodeCpd]
      constructor
      · intro hh d' hd'
        have hd : d' = d := by
          injection hd' with h1
          injection h1 with h2
          exact h2.symm
        subst hd
        by_cases h1 : sameSet d'.evidence (get_parents m n) = true
        · rw [if_pos h1] at hh
          by_cases h2 : allcloseOnes (marginalize_values d') = true
          · exact ⟨h1, h2⟩
          · rw [if_neg h2] at hh
            exact Except.noConfusion hh
        · rw [if_neg h1] at hh
          exact Except.noConfusion hh
      · intro hh
        obtain ⟨h1, h2⟩ := hh d rfl
        rw [if_pos h1, if_pos h2]
    | tree v vs => simp [checkNodeCpd]
    | rule v vs => simp [checkNodeCpd]

lemma checkNode_error_shape (m : Model) (n : DBNNode) (e : DBNError)
    (h : checkNode m n = .error e) :
    e = .inconsistentParents n ∨ e = .probabilityNormalization n := by
  unfold checkNode at h
  cases hl : lookupCpd m.cpds n with
  | none =>
    rw [hl] at h
    exact Except.noConfusion h
  | some c =>
    rw [hl] at h
    cases c with
    | tabular d =>
      simp only [checkNodeCpd] at h
      by_cases h1 : sameSet d.evidence (get_parents m n) = true
      · rw [if_pos h1] at h
        by_cases h2 : allcloseOnes (marginalize_values d) = true
        · rw [if_pos h2] at h
          exact Except.noConfusion h
        · rw [if_neg h2] at h
          injection h with hh
          exact Or.inr hh.symm
      · rw [if_neg h1] at h
        injection h with hh
        exact Or.inl hh.symm
    | tree v vs => exact Except.noConfusion h
    | rule v vs => exact Except.noConfusion h

/-- C3 (amended): `check_model()` returns true iff, for every node whose
looked-up CPD is tabular, the CPD's declared evidence set equals the
node's parent set (as unordered sets) and every entry of the marginal over
the owned variable lies within `0.01 + 1e-5` of 1 — numpy's
`allclose(..., atol=0.01)` tolerance with its default `rtol=1e-5` against
the desired value 1; otherwise it fails at the first offending node, with
an inconsistent-parents or normalization error naming that node. -/
theorem check_model_ok_iff :
    (∀ m : Model,
        m.check_model = .ok true ↔
          ∀ n ∈ m.nodeList, ∀ d : TabularCPDData,
            lookupCpd m.cpds n = some (.tabular d) →
              sameSet d.evidence (get_parents m n) = true ∧
              allcloseOnes (marginalize_values d) = true) ∧
    (∀ (m : Model) (e : DBNError), m.check_model = .error e →
        ∃ l1 n l2, m.nodeList = l1 ++ n :: l2 ∧
          (∀ x ∈ l1, checkNode m x = .ok ()) ∧
          checkNode m n = .error e ∧
          (e = .inconsistentParents n ∨ e = .probabilityNormalization n)) := by
  constructor
  · intro m
    unfold Model.check_model
    rw [checkNodes_ok_iff]
    exact forall₂_congr fun n _ => checkNode_ok_iff m n
  · intro m e h
    unfold Model.check_model at h
    obtain ⟨l1, n, l2, hsplit, hall, hn⟩ := checkNodes_error_split m m.nodeList e h
    exact ⟨l1, n, l2, hsplit, hall, hn, checkNode_error_shape m n e hn⟩

/-- Witness for C3 at concrete models: on `cex3m` the success direction
yields the per-node condition, and on `cexBad` the failure direction
names the offending node `(Z,0)` with a normalization error. -/
theorem check_model_ok_iff_witness :
    (∀ n ∈ cex3m.nodeList, ∀ d : TabularCPDData,
        lookupCpd cex3m.cpds n = some (.tabular d) →
          sameSet d.evidence (get_parents cex3m n) = true ∧
          allcloseOnes (marginalize_values d) = true) ∧
    (∃ l1 n l2, cexBad.nodeList = l1 ++ n :: l2 ∧
        (∀ x ∈ l1, checkNode cexBad x = .ok ()) ∧
        checkNode cexBad n = .error (.probabilityNormalization ("Z", 0)) ∧
        ((.probabilityNormalization ("Z", 0) : DBNError) = .inconsistentParents n ∨
          (.probabilityNormalization ("Z", 0) : DBNError) = .probabilityNormalization n)) := by
  constructor
  · exact (check_model_ok_iff.1 cex3m).mp (by decide)
  · exact check_model_ok_iff.2 cexBad (.probabilityNormalization ("Z", 0)) (by decide)

/-- C3 fails as stated: on `cex3m` the only CPD's marginal is
`1 + 2001/200000`, which differs from 1 by more than the claimed absolute
tolerance `0.01`, yet `check_model` returns true — because the source uses
`np.allclose(..., atol=0.01)` whose effective tolerance also includes
numpy's default relative term `1e-5`. -/
theorem check_model_abs_tolerance_cex :
    cex3m.check_model = .ok true ∧
    lookupCpd cex3m.cpds ("Y", 0) =
      some (.tabular ⟨("Y", 0), 2, [202001/400000, 202001/400000], [], []⟩) ∧
    marginalize_values ⟨("Y", 0), 2, [202001/400000, 202001/400000], [], []⟩ =
      [202001/200000] ∧
    ¬(ratAbs ((202001 : Rat)/200000 - 1) ≤ 1/100) := by
  exact ⟨by decide, by decide, by decide, by decide⟩

/-- Whether a looked-up CPD is a tabular CPD. -/
def isTabular : Option CPD → Bool
  | some (.tabular _) => true
  | _ => false

/-- C9: `check_model` checks only nodes whose looked-up CPD is tabular —
when no node's lookup yields a tabular CPD (no CPD at all, or a tree or
rule CPD), every node is skipped and `check_model()` returns true. -/
theorem check_model_skips_non_tabular (m : Model)
    (h : m.nodeList.all (fun n => !(isTabular (lookupCpd m.cpds n))) = true) :
    m.check_model = .ok true := by
  unfold Model.check_model
  rw [checkNodes_ok_iff]
  intro n hn
  have hnt : isTabular (lookupCpd m.cpds n) = false := by
    have := List.all_eq_true.mp h n hn
    simpa using this
  unfold checkNode
  cases hl : lookupCpd m.cpds n with
  | none => rfl
  | some c =>
    cases c with
    | tabular d =>
      rw [hl] at hnt
      exact Bool.noConfusion hnt
    | tree v vs => rfl
    | rule v vs => rfl

/-- Witness for C9 at concrete models: the docstring model (nodes and
edges, no CPDs at all) and a model whose only CPD is a tree CPD both pass
`check_model`. -/
theorem check_model_skips_non_tabular_witness :
    model7.check_model = .ok true ∧ treeM.check_model = .ok true := by
  constructor
  · exact check_model_skips_non_tabular model7 (by decide)
  · exact check_model_skips_non_tabular treeM (by decide)

/-! Helper lemmas about `initialize_initial_state`. -/

lemma initStep_tabular_def (m : Model) (d : TabularCPDData) :
    initStep m (.tabular d) =
      if m.cpds.any (fun x => decide (x.«variable» = mirrorVar d.«variable»)) then .ok m
      else if allSameSlice (get_parents m (mirrorVar d.«variable»)) then
        if (get_parents m (mirrorVar d.«variable»)).isEmpty then
          m.add_cpd (TabularCPDNoEv (mirrorVar d.«variable») d.variable_card
            (npSplit d.variable_card d.values))
        else
          m.add_cpd (TabularCPD (mirrorVar d.«variable») d.variable_card
            (npSplit d.variable_card d.values)
            (get_parents m (mirrorVar d.«variable»)) d.evidence_card)
      else .ok m := rfl

/-- C2 (amended): per registered CPT `C`, the loop body of
`initialize_initial_state` considers the mirrored variable
`(name, 1 - slice)`.  If some registered CPT already owns the mirrored
variable, nothing is synthesized.  Otherwise, when the mirrored variable's
parents all share one slice and are nonempty, a CPT is registered (via
`add_cpds`, appended to the CPT list) with `C`'s cardinality, `C`'s value
tensor split into cardinality-many equal partitions, the mirrored
variable's parent list as evidence and `C`'s evidence cardinalities; when
the mirrored variable has no parents, the synthesized CPT instead has
EMPTY evidence and EMPTY evidence cardinalities (not `C`'s). -/
theorem init_step_mirror_synthesis :
    (∀ (m : Model) (c : CPD),
        (∃ x ∈ m.cpds, x.«variable» = mirrorVar c.«variable») →
        initStep m c = .ok m) ∧
    (∀ (m : Model) (d : TabularCPDData),
        (∀ x ∈ m.cpds, x.«variable» ≠ mirrorVar d.«variable») →
        allSameSlice (get_parents m (mirrorVar d.«variable»)) = true →
        get_parents m (mirrorVar d.«variable») ≠ [] →
        initStep m (.tabular d) =
          m.add_cpd (TabularCPD (mirrorVar d.«variable») d.variable_card
            (npSplit d.variable_card d.values)
            (get_parents m (mirrorVar d.«variable»)) d.evidence_card)) ∧
    (∀ (m : Model) (d : TabularCPDData),
        (∀ x ∈ m.cpds, x.«variable» ≠ mirrorVar d.«variable») →
        get_parents m (mirrorVar d.«variable») = [] →
        initStep m (.tabular d) =
          m.add_cpd (TabularCPDNoEv (mirrorVar d.«variable») d.variable_card
            (npSplit d.variable_card d.values))) ∧
    (∀ (m m' : Model) (c : CPD), m.add_cpd c = .ok m' → m'.cpds = m.cpds ++ [c]) := by
  refine ⟨?_, ?_, ?_, ?_⟩
  · intro m c hex
    obtain ⟨x, hx, hvx⟩ := hex
    have hany : m.cpds.any (fun x => decide (x.«variable» = mirrorVar c.«variable»)) = true :=
      List.any_eq_true.mpr ⟨x, hx, by simp [hvx]⟩
    simp only [initStep]
    rw [if_pos hany]
  · intro m d hno hsame hne
    have hany : m.cpds.any (fun x => decide (x.«variable» = mirrorVar d.«variable»)) = false := by
      simp only [List.any_eq_false]
      intro x hx
      simpa using hno x hx
    have hc1 : ¬(m.cpds.any (fun x => decide (x.«variable» = mirrorVar d.«variable»)) = true) := by
      simp [hany]
    have hc3 : ¬((get_parents m (mirrorVar d.«variable»)).isEmpty = true) := by
      simpa [List.isEmpty_iff] using hne
    rw [initStep_tabular_def, if_neg hc1, if_pos hsame, if_neg hc3]
  · intro m d hno hpar
    have hany : m.cpds.any (fun x => decide (x.«variable» = mirrorVar d.«variable»)) = false := by
      simp only [List.any_eq_false]
      intro x hx
      simpa using hno x hx
    have hc1 : ¬(m.cpds.any (fun x => decide (x.«variable» = mirrorVar d.«variable»)) = true) := by
      simp [hany]
    rw [initStep_tabular_def, if_neg hc1, if_pos (by rw [hpar]; rfl),
      if_pos (by rw [hpar]; rfl)]
  · intro m m' c h
    exact add_cpd_ok_cpds h

/-- Witness for C2 at concrete inputs: on `cex2m` a parentless mirrored
CPT for `(X,0)` is synthesized with empty evidence; on the docstring
model a mirrored CPT for `(G,0)` is synthesized with evidence
`[(D,0),(I,0)]`; on the completed model `cex2res`, where `(X,0)` already
owns a CPT, the loop body for `cpdC2` changes nothing. -/
theorem init_step_mirror_synthesis_witness :
    initStep cex2m (.tabular ⟨("X", 1), 2, [1/2, 1/2, 1/2, 1/2], [("D", 0)], [2]⟩) =
      cex2m.add_cpd (TabularCPDNoEv (mirrorVar ("X", 1)) 2
        (npSplit 2 [1/2, 1/2, 1/2, 1/2])) ∧
    initStep model7 (.tabular cpdG7) =
      model7.add_cpd (TabularCPD (mirrorVar cpdG7.«variable») cpdG7.variable_card
        (npSplit cpdG7.variable_card cpdG7.values)
        (get_parents model7 (mirrorVar cpdG7.«variable»)) cpdG7.evidence_card) ∧
    initStep cex2res cpdC2 = .ok cex2res := by
  refine ⟨?_, ?_, ?_⟩
  · exact init_step_mirror_synthesis.2.2.1 cex2m
      ⟨("X", 1), 2, [1/2, 1/2, 1/2, 1/2], [("D", 0)], [2]⟩ (by decide) (by decide)
  · exact init_step_mirror_synthesis.2.1 model7 cpdG7 (by decide) (by decide) (by decide)
  · exact init_step_mirror_synthesis.1 cex2res cpdC2 (by decide)

/-- C2 fails as stated: on `cex2m` the registered CPT `C` owned by `(X,1)`
has evidence cardinalities `[2]`, its mirrored variable `(X,0)` has no
parents, and `initialize_initial_state` synthesizes the mirrored CPT with
EMPTY evidence cardinalities — not equal to `C`'s as the claim asserts. -/
theorem init_state_evidence_card_cex :
    cex2m.cpds = [.tabular ⟨("X", 1), 2, [1/2, 1/2, 1/2, 1/2], [("D", 0)], [2]⟩] ∧
    cex2m.initialize_initial_state = .ok cex2res ∧
    lookupCpd cex2res.cpds ("X", 0) =
      some (.tabular ⟨("X", 0), 2, [1/2, 1/2, 1/2, 1/2], [], []⟩) ∧
    (([] : List Nat) ≠ [2]) := by
  exact ⟨by decide, by decide, by decide, by decide⟩
